import Mathlib

/-!
# Verification of the go-supervisor core (`src/supervisor/supervisor.go`)

Shallow embedding of the supervisor package: a `Start` entry point that
defaults its configuration, then runs a supervision loop which, on every
cycle, polls a cancellation signal, performs one crash-isolated worker
invocation, logs, sleeps for the current backoff, and advances the backoff
with `backoff = time.Duration(math.Min(float64(backoff*2), float64(cfg.MaxBackoff)))`.

Durations (`time.Duration`, an `int64` count of nanoseconds) are embedded as
`Int`; the one arithmetic operation that can overflow int64 (`backoff*2`) is
wrapped explicitly.  The `float64` conversions in the backoff update are
embedded exactly: converting an `int64` to `float64` in Go rounds the value
to the nearest IEEE-754 binary64 (53-bit significand, round half to even),
which for integers means rounding to the nearest multiple of the value's
ulp; this is a pure integer function, defined below.
-/

set_option autoImplicit false

namespace GoSupervisor

/-! ### IEEE-754 binary64 rounding of integer values

`float64(n)` for an `int64` value `n`: exact when `|n| < 2^53`; otherwise
`n` is rounded to the nearest multiple of `ulp n = 2^(floorLog2 |n| - 52)`,
ties to the even multiple.  All int64 values are finite in binary64, so no
overflow to infinity occurs. -/

/-- Round `x` to the nearest multiple of `g` (assumed positive), with ties
going to the multiple whose quotient is even — IEEE-754 round-half-to-even
restricted to nonnegative integers. -/
def roundNearestEven (x g : Nat) : Nat :=
  let q := x / g
  let r := x % g
  if 2 * r < g then q * g
  else if g < 2 * r then (q + 1) * g
  else if q % 2 = 0 then q * g else (q + 1) * g

/-- Fuel-driven computation of the ulp (unit in the last place) of a natural
number viewed as a binary64 value: the least power of two `2^k` with
`n / 2^k < 2^53`.  Fuel 64 suffices for every int64 magnitude. -/
def ulpAux : Nat → Nat → Nat
  | 0, _ => 1
  | fuel + 1, n => if n < 2 ^ 53 then 1 else 2 * ulpAux fuel (n / 2)

/-- The ulp of `n` as a binary64 value (`1` when `n` is below `2^53`). -/
def ulp (n : Nat) : Nat := ulpAux 64 n

/-- The exact value of `float64(n)` for a natural number `n < 2^64`:
round to the nearest multiple of the ulp, ties to even. -/
def float64OfNat (n : Nat) : Nat := roundNearestEven n (ulp n)

/-- The exact value of `float64(n)` for an `int64` value `n`.  IEEE-754
rounding is sign-symmetric. -/
def float64OfInt (n : Int) : Int :=
  if n < 0 then -(float64OfNat n.natAbs) else (float64OfNat n.natAbs : Int)

/-- Two's-complement wrap-around of an integer into the int64 range
`[-2^63, 2^63)`: Go's signed integer overflow semantics for `backoff * 2`. -/
def int64wrap (n : Int) : Int := (n + 2 ^ 63) % 2 ^ 64 - 2 ^ 63

/-! ### The backoff advance (supervisor.go line 94)

`backoff = time.Duration(math.Min(float64(backoff*2), float64(cfg.MaxBackoff)))`

`backoff*2` is int64 multiplication (may wrap); both operands are converted
to `float64` (rounding as above); `math.Min` of two finite floats is their
minimum; the resulting float is integer-valued, so the final
`time.Duration(...)` conversion (truncation toward zero) returns it
unchanged whenever it lies in the int64 range. -/

/-- The backoff-advance step of the supervision loop, exactly as computed by
the source. -/
def nextBackoff (backoff maxBackoff : Int) : Int :=
  min (float64OfInt (int64wrap (backoff * 2))) (float64OfInt maxBackoff)

/-! ### Configuration (supervisor.go lines 39–51) -/

/-- A `*log.Logger` reference: `nil`, the process-wide `log.Default()`
sink, or a caller-supplied logger. -/
inductive LoggerRef where
  | defaultLogger : LoggerRef
  | custom : Nat → LoggerRef
  deriving DecidableEq, Repr

/-- `Config` — `MinBackoff`/`MaxBackoff` are `time.Duration` (int64
nanoseconds), `Logger` is a possibly-nil pointer. -/
structure Config where
  MinBackoff : Int
  MaxBackoff : Int
  Logger : Option LoggerRef
  deriving DecidableEq, Repr

/-- Nanoseconds in `time.Second`. -/
def second : Int := 1000000000

/-- `DefaultConfig()` (supervisor.go lines 45–51). -/
def DefaultConfig : Config :=
  { MinBackoff := 1 * second, MaxBackoff := 30 * second,
    Logger := some LoggerRef.defaultLogger }

/-- The defaulting performed at the top of `Start` (supervisor.go lines
59–67): each field is replaced by its default exactly when it equals the
zero value of its type; there is no other validation and no rejection. -/
def resolveConfig (cfg : Config) : Config :=
  { MinBackoff := if cfg.MinBackoff = 0 then 1 * second else cfg.MinBackoff,
    MaxBackoff := if cfg.MaxBackoff = 0 then 30 * second else cfg.MaxBackoff,
    Logger := if cfg.Logger = none then some LoggerRef.defaultLogger
              else cfg.Logger }

/-! ### Crash-isolating invocation (supervisor.go lines 80–88)

A single worker invocation either returns normally or panics with a payload
(the value passed to `panic`, of type `π`); this is embedded as
`Except π Unit`, where `Except.error p` is a panic with payload `p`
propagating out of the call.  The wrapper

    func() {
        defer func() {
            if r := recover(); r != nil {
                cfg.Logger.Printf("[supervisor] worker crashed: %v", r)
            }
        }()
        worker(ctx)
    }()

catches any panic raised in the worker's call stack: `recover()` inside the
deferred function stops the unwinding and returns the payload (non-nil for
every panic under current Go semantics, where `panic(nil)` yields a
`*runtime.PanicNilError`), so a crash message is logged and the wrapper
returns normally. -/

/-- The three message kinds the loop emits. -/
inductive LogMsg (π : Type) where
  | stoppedMsg : LogMsg π
  | crashed : π → LogMsg π
  | restarting : Int → LogMsg π
  deriving DecidableEq, Repr

/-- The crash-isolating wrapper around one worker invocation: runs the
worker, catches a propagating panic with `recover`, and converts it into a
crash-log message.  The codomain's `Except π` layer represents a panic
escaping the wrapper to its caller (the supervision loop's goroutine). -/
def protectedCall {π : Type} (worker : Except π Unit) :
    Except π (List (LogMsg π)) :=
  Except.tryCatch (Except.map (fun _ => ([] : List (LogMsg π))) worker)
    (fun p => Except.ok [LogMsg.crashed p])

/-- The log messages produced by one crash-isolated invocation (empty when
the wrapper itself would let a panic escape, which never happens). -/
def invokeLogs {π : Type} (worker : Except π Unit) : List (LogMsg π) :=
  match protectedCall worker with
  | Except.ok logs => logs
  | Except.error _ => []

/-! ### The supervision loop (supervisor.go lines 69–96) -/

/-- The observable state of one supervising goroutine: the current backoff,
whether the loop has returned after observing cancellation (`stopped`),
whether the goroutine was killed by an uncaught panic (`taskDead` — the
crash-isolation claim is that this never happens), the emitted log, and the
sequence of `time.Sleep` durations performed so far. -/
structure LoopState (π : Type) where
  backoff : Int
  stopped : Bool
  taskDead : Bool
  log : List (LogMsg π)
  waits : List Int
  deriving DecidableEq, Repr

/-- The loop's state when the goroutine starts: `backoff := cfg.MinBackoff`
(supervisor.go line 70). -/
def initState (π : Type) (cfg : Config) : LoopState π :=
  { backoff := cfg.MinBackoff, stopped := false, taskDead := false,
    log := [], waits := [] }

/-- One cycle of the `for` loop (supervisor.go lines 72–95): a non-blocking
poll of `ctx.Done()` (`cancQ` is whether the context was observed cancelled
at this cycle's top); on cancellation, log the stop notice and return;
otherwise perform the crash-isolated invocation, log the restart delay,
sleep for the current backoff (recorded in `waits` — `time.Sleep` is not
interruptible), and advance the backoff.  A `stopped` or `taskDead` state is
final: the goroutine does nothing further. -/
def cycle {π : Type} (cfg : Config) (cancQ : Bool) (worker : Except π Unit)
    (s : LoopState π) : LoopState π :=
  if s.stopped ∨ s.taskDead then s
  else if cancQ then
    { s with stopped := true, log := s.log ++ [LogMsg.stoppedMsg] }
  else
    match protectedCall worker with
    | Except.ok crashLog =>
      { backoff := nextBackoff s.backoff cfg.MaxBackoff,
        stopped := false, taskDead := false,
        log := s.log ++ crashLog ++ [LogMsg.restarting s.backoff],
        waits := s.waits ++ [s.backoff] }
    | Except.error _ => { s with taskDead := true }

/-- The loop's state after `n` cycles, for a cancellation trace `canc`
(`canc i` is what the cycle-top poll of `ctx.Done()` observes on cycle `i`)
and a trace `ws` of worker behaviours (`ws i` is the outcome of the worker
invocation on cycle `i`, where one happens). -/
def run {π : Type} (cfg : Config) (canc : Nat → Bool)
    (ws : Nat → Except π Unit) : Nat → LoopState π
  | 0 => initState π cfg
  | n + 1 => cycle cfg (canc n) (ws n) (run cfg canc ws n)

/-- `Start(ctx, cfg, worker)`: defaults the configuration, then spawns the
supervision loop; the spawned goroutine's state after `n` cycles. -/
def startRun {π : Type} (cfg : Config) (canc : Nat → Bool)
    (ws : Nat → Except π Unit) (n : Nat) : LoopState π :=
  run (resolveConfig cfg) canc ws n

/-! ### Helper lemmas: exactness of the float64 embedding in the small range -/

theorem ulpAux_succ (fuel n : Nat) :
    ulpAux (fuel + 1) n = if n < 2 ^ 53 then 1 else 2 * ulpAux fuel (n / 2) :=
  rfl

theorem pow53 : (2 : Nat) ^ 53 = 9007199254740992 := by norm_num

theorem pow54 : (2 : Nat) ^ 54 = 18014398509481984 := by norm_num

theorem ulp_small {n : Nat} (h : n < 2 ^ 53) : ulp n = 1 := by
  have e : ulp n = ulpAux (63 + 1) n := rfl
  rw [e, ulpAux_succ, if_pos h]

theorem ulp_mid {n : Nat} (h1 : 2 ^ 53 ≤ n) (h2 : n < 2 ^ 54) : ulp n = 2 := by
  have e : ulp n = ulpAux (63 + 1) n := rfl
  have e2 : ulpAux 63 (n / 2) = ulpAux (62 + 1) (n / 2) := rfl
  have h3 : n / 2 < 2 ^ 53 := by
    rw [pow53] at *
    rw [pow54] at h2
    omega
  rw [e, ulpAux_succ, if_neg (by omega), e2, ulpAux_succ, if_pos h3]

theorem roundNearestEven_one (x : Nat) : roundNearestEven x 1 = x := by
  simp [roundNearestEven, Nat.mod_one]

theorem roundNearestEven_dvd {x g : Nat} (hg : 0 < g) (h : g ∣ x) :
    roundNearestEven x g = x := by
  have hr : x % g = 0 := by
    rcases h with ⟨k, rfl⟩
    simp [Nat.mul_mod_right]
  simp [roundNearestEven, hr, hg, Nat.div_mul_cancel h]

theorem float64OfNat_small {n : Nat} (h : n < 2 ^ 53) : float64OfNat n = n := by
  rw [float64OfNat, ulp_small h, roundNearestEven_one]

theorem float64OfNat_even_exact {n : Nat} (h2 : n < 2 ^ 54) (he : 2 ∣ n) :
    float64OfNat n = n := by
  rcases Nat.lt_or_ge n (2 ^ 53) with h | h
  · exact float64OfNat_small h
  · rw [float64OfNat, ulp_mid h h2, roundNearestEven_dvd (by norm_num) he]

theorem float64OfInt_exact {n : Int} (h0 : 0 ≤ n) (h : n < 2 ^ 53) :
    float64OfInt n = n := by
  rw [float64OfInt, if_neg (not_lt.2 h0)]
  have h1 : n.natAbs < 2 ^ 53 := by
    have := pow53
    omega
  rw [float64OfNat_small h1, Int.natAbs_of_nonneg h0]

theorem float64OfInt_two_mul_exact {c : Int} (h0 : 0 ≤ c) (h : c < 2 ^ 53) :
    float64OfInt (c * 2) = c * 2 := by
  have h0' : (0 : Int) ≤ c * 2 := by omega
  rw [float64OfInt, if_neg (not_lt.2 h0')]
  have h2 : (c * 2).natAbs < 2 ^ 54 := by
    have := pow53
    have := pow54
    omega
  have he : 2 ∣ (c * 2).natAbs := by
    rw [Int.natAbs_mul]
    exact dvd_mul_left 2 c.natAbs
  rw [float64OfNat_even_exact h2 he, Int.natAbs_of_nonneg h0']

theorem int64wrap_id {n : Int} (h1 : -(2 ^ 63) ≤ n) (h2 : n < 2 ^ 63) :
    int64wrap n = n := by
  have e63 : (2 : Int) ^ 63 = 9223372036854775808 := by norm_num
  have e64 : (2 : Int) ^ 64 = 18446744073709551616 := by norm_num
  rw [int64wrap, Int.emod_eq_of_lt (by omega) (by omega)]
  omega

/-- In the float64-exact range (both operands below `2^53` nanoseconds,
about 104 days), the backoff advance coincides with the exact duration
minimum `min(2*current, MaxBackoff)`. -/
theorem nextBackoff_eq_min {c M : Int} (hc0 : 0 ≤ c) (hc : c < 2 ^ 53)
    (hM0 : 0 ≤ M) (hM : M < 2 ^ 53) : nextBackoff c M = min (2 * c) M := by
  have h53 : (2 : Int) ^ 53 = 9007199254740992 := by norm_num
  have h63 : (2 : Int) ^ 63 = 9223372036854775808 := by norm_num
  rw [nextBackoff, int64wrap_id (by omega) (by omega),
    float64OfInt_two_mul_exact hc0 hc, float64OfInt_exact hM0 hM,
    mul_comm c 2]

/-! ### Helper lemmas: the wrapper and single cycles -/

theorem protectedCall_ok_eq {π : Type} (u : Unit) :
    protectedCall (Except.ok u : Except π Unit) = Except.ok [] := rfl

theorem protectedCall_error_eq {π : Type} (p : π) :
    protectedCall (Except.error p : Except π Unit) =
      Except.ok [LogMsg.crashed p] := rfl

theorem protectedCall_isOk {π : Type} (w : Except π Unit) :
    ∃ logs, protectedCall w = Except.ok logs := by
  cases w with
  | ok u => exact ⟨[], rfl⟩
  | error p => exact ⟨[LogMsg.crashed p], rfl⟩

theorem invokeLogs_ok {π : Type} (u : Unit) :
    invokeLogs (Except.ok u : Except π Unit) = [] := rfl

theorem invokeLogs_error {π : Type} (p : π) :
    invokeLogs (Except.error p : Except π Unit) = [LogMsg.crashed p] := rfl

theorem cycle_of_stopped {π : Type} (cfg : Config) (c : Bool)
    (w : Except π Unit) (s : LoopState π) (h : s.stopped = true) :
    cycle cfg c w s = s := by
  simp [cycle, h]

theorem cycle_of_dead {π : Type} (cfg : Config) (c : Bool)
    (w : Except π Unit) (s : LoopState π) (h : s.taskDead = true) :
    cycle cfg c w s = s := by
  simp [cycle, h]

theorem cycle_cancelled {π : Type} (cfg : Config) (w : Except π Unit)
    (s : LoopState π) (h1 : s.stopped = false) (h2 : s.taskDead = false) :
    cycle cfg true w s =
      { s with stopped := true, log := s.log ++ [LogMsg.stoppedMsg] } := by
  simp [cycle, h1, h2]

theorem cycle_working {π : Type} (cfg : Config) (w : Except π Unit)
    (s : LoopState π) (h1 : s.stopped = false) (h2 : s.taskDead = false) :
    cycle cfg false w s =
      { backoff := nextBackoff s.backoff cfg.MaxBackoff,
        stopped := false, taskDead := false,
        log := s.log ++ invokeLogs w ++ [LogMsg.restarting s.backoff],
        waits := s.waits ++ [s.backoff] } := by
  cases w with
  | ok u => simp [cycle, h1, h2, protectedCall_ok_eq, invokeLogs_ok]
  | error p => simp [cycle, h1, h2, protectedCall_error_eq, invokeLogs_error]

theorem cycle_taskDead {π : Type} (cfg : Config) (c : Bool)
    (w : Except π Unit) (s : LoopState π) :
    (cycle cfg c w s).taskDead = s.taskDead := by
  cases hs : s.stopped with
  | true => rw [cycle_of_stopped cfg c w s hs]
  | false =>
    cases hd : s.taskDead with
    | true => rw [cycle_of_dead cfg c w s hd]; exact hd
    | false =>
      cases c with
      | true => rw [cycle_cancelled cfg w s hs hd]; exact hd
      | false => rw [cycle_working cfg w s hs hd]

theorem cycle_keeps_running {π : Type} (cfg : Config) (w : Except π Unit)
    (s : LoopState π) (h : s.stopped = false) :
    (cycle cfg false w s).stopped = false := by
  cases hd : s.taskDead with
  | true => rw [cycle_of_dead cfg false w s hd, h]
  | false => rw [cycle_working cfg w s h hd]

/-! ### Helper lemmas: the loop across cycles -/

theorem run_zero {π : Type} (cfg : Config) (canc : Nat → Bool)
    (ws : Nat → Except π Unit) : run cfg canc ws 0 = initState π cfg := rfl

theorem run_succ {π : Type} (cfg : Config) (canc : Nat → Bool)
    (ws : Nat → Except π Unit) (n : Nat) :
    run cfg canc ws (n + 1) = cycle cfg (canc n) (ws n) (run cfg canc ws n) :=
  rfl

theorem run_taskDead {π : Type} (cfg : Config) (canc : Nat → Bool)
    (ws : Nat → Except π Unit) (n : Nat) :
    (run cfg canc ws n).taskDead = false := by
  induction n with
  | zero => rfl
  | succ n ih => rw [run_succ, cycle_taskDead]; exact ih

theorem run_stopped_of_no_cancel {π : Type} (cfg : Config) (canc : Nat → Bool)
    (ws : Nat → Except π Unit) (hc : ∀ n, canc n = false) (n : Nat) :
    (run cfg canc ws n).stopped = false := by
  induction n with
  | zero => rfl
  | succ n ih => rw [run_succ, hc n]; exact cycle_keeps_running _ _ _ ih

/-- The combined loop invariant, for a configuration in the float64-exact
range with `0 < MinBackoff ≤ MaxBackoff < 2^53`: the backoff stays between
the configured bounds, the performed waits are non-decreasing, and every
performed wait is at most the current backoff. -/
theorem waits_invariant {π : Type} (cfg : Config) (canc : Nat → Bool)
    (ws : Nat → Except π Unit) (h0 : 0 < cfg.MinBackoff)
    (hle : cfg.MinBackoff ≤ cfg.MaxBackoff) (hmax : cfg.MaxBackoff < 2 ^ 53)
    (n : Nat) :
    cfg.MinBackoff ≤ (run cfg canc ws n).backoff ∧
    (run cfg canc ws n).backoff ≤ cfg.MaxBackoff ∧
    List.Chain' (· ≤ ·) (run cfg canc ws n).waits ∧
    (∀ x ∈ (run cfg canc ws n).waits, x ≤ (run cfg canc ws n).backoff) := by
  induction n with
  | zero =>
    refine ⟨le_refl _, hle, ?_, ?_⟩ <;> simp [run_zero, initState]
  | succ n ih =>
    obtain ⟨ih1, ih2, ih3, ih4⟩ := ih
    rw [run_succ]
    have hd : (run cfg canc ws n).taskDead = false := run_taskDead cfg canc ws n
    cases hs : (run cfg canc ws n).stopped with
    | true => rw [cycle_of_stopped _ _ _ _ hs]; exact ⟨ih1, ih2, ih3, ih4⟩
    | false =>
      cases hc : canc n with
      | true =>
        rw [cycle_cancelled _ _ _ hs hd]
        exact ⟨ih1, ih2, ih3, ih4⟩
      | false =>
        rw [cycle_working _ _ _ hs hd]
        have hmin := nextBackoff_eq_min (le_of_lt (lt_of_lt_of_le h0 ih1))
          (lt_of_le_of_lt ih2 hmax) (le_trans (le_of_lt h0) hle) hmax
        have hbb : (run cfg canc ws n).backoff ≤
            nextBackoff (run cfg canc ws n).backoff cfg.MaxBackoff := by
          rw [hmin]
          exact le_min (by omega) ih2
        refine ⟨?_, ?_, ?_, ?_⟩
        · rw [hmin]
          exact le_min (by omega) hle
        · rw [hmin]
          exact min_le_right _ _
        · rw [List.chain'_append]
          refine ⟨ih3, List.chain'_singleton _, ?_⟩
          intro x hx y hy
          simp only [List.head?_cons, Option.mem_def, Option.some.injEq] at hy
          subst hy
          exact ih4 x (List.mem_of_mem_getLast? hx)
        · intro x hx
          rcases List.mem_append.1 hx with hx | hx
          · exact le_trans (ih4 x hx) hbb
          · simp only [List.mem_singleton] at hx
            subst hx
            exact hbb

/-! ### Concrete configurations and traces used by witnesses and
counterexamples -/

/-- A configuration at the edge of binary64 precision: `MinBackoff =
MaxBackoff = 2^54 + 2` ns (about 208 days), a legal `time.Duration`
satisfying `0 < MinBackoff ≤ MaxBackoff`. -/
def hugeCfg : Config :=
  { MinBackoff := 18014398509481986, MaxBackoff := 18014398509481986,
    Logger := some LoggerRef.defaultLogger }

/-- The test scenario's configuration: `MinBackoff = 10ms`,
`MaxBackoff = 50ms`. -/
def smallCfg : Config :=
  { MinBackoff := 10000000, MaxBackoff := 50000000,
    Logger := some LoggerRef.defaultLogger }

/-- A configuration with `0 < MaxBackoff < MinBackoff`. -/
def invertedCfg : Config :=
  { MinBackoff := 2, MaxBackoff := 1, Logger := some LoggerRef.defaultLogger }

/-- A configuration with negative backoff durations and a caller-supplied
logger. -/
def negCfg : Config :=
  { MinBackoff := -5, MaxBackoff := -7, Logger := some (LoggerRef.custom 3) }

/-- A configuration whose only negative field is `MaxBackoff`. -/
def mixedCfg : Config :=
  { MinBackoff := second, MaxBackoff := -7, Logger := none }

/-- A worker that panics on every invocation (payload `0`). -/
def crashingWorker : Nat → Except Nat Unit := fun _ => Except.error 0

/-- A cancellation signal that never fires. -/
def neverCancel : Nat → Bool := fun _ => false

/-- A cancellation signal that fires during the first cycle's wait: the
poll at the top of cycle 0 sees it unfired, every later poll sees it
fired. -/
def cancelAfterFirst : Nat → Bool := fun n => decide (0 < n)

/-! ### The claims -/

/-- C1: every panic raised during a worker invocation is intercepted inside
the crash-isolating wrapper — `protectedCall` always returns `ok`, never a
propagating panic — and control returns to the supervision loop: a
non-cancelled cycle leaves the loop task's liveness (`taskDead`) and its
`stopped` flag exactly as they were whatever the worker's outcome, and
after any number of cycles with any worker trace the loop's task is never
dead. -/
theorem c1_panic_isolation {π : Type} (w : Except π Unit) (cfg : Config)
    (canc : Nat → Bool) (ws : Nat → Except π Unit) (s : LoopState π)
    (n : Nat) :
    (∃ logs, protectedCall w = Except.ok logs) ∧
    (cycle cfg false w s).taskDead = s.taskDead ∧
    (cycle cfg false w s).stopped = s.stopped ∧
    (run cfg canc ws n).taskDead = false := by
  refine ⟨protectedCall_isOk w, cycle_taskDead cfg false w s, ?_,
    run_taskDead cfg canc ws n⟩
  cases hs : s.stopped with
  | true => rw [cycle_of_stopped cfg false w s hs]; exact hs
  | false =>
    cases hd : s.taskDead with
    | true => rw [cycle_of_dead cfg false w s hd]; exact hs
    | false => rw [cycle_working cfg w s hs hd]

/-- C2 counterexample: at current backoff `2^53 + 1` ns and `MaxBackoff =
2^55` ns the code's advance (float64 `math.Min`) yields `2^54`, while the
exact duration minimum `min(2*current, MaxBackoff)` is `2^54 + 2`: the
advance is a floating-point approximation, not exact duration arithmetic,
and loses precision at very large duration values. -/
theorem c2_float_min_counterexample :
    nextBackoff 9007199254740993 36028797018963968 = 18014398509481984 ∧
    min (2 * 9007199254740993) 36028797018963968 = (18014398509481986 : Int) ∧
    (18014398509481984 : Int) < 18014398509481986 := by
  refine ⟨by decide, by norm_num, by norm_num⟩

/-- C2 (amended): the backoff-advance step agrees with the exact
integer/duration minimum `min(2*current, MaxBackoff)` whenever both the
current backoff and `MaxBackoff` are below `2^53` ns (about 104 days), the
range in which the float64 conversions are exact; outside that range the
float64 rounding can change the result. -/
theorem c2_backoff_advance_exact_in_range {c M : Int} (hc0 : 0 ≤ c)
    (hc : c < 2 ^ 53) (hM0 : 0 ≤ M) (hM : M < 2 ^ 53) :
    nextBackoff c M = min (2 * c) M :=
  nextBackoff_eq_min hc0 hc hM0 hM

/-- Witness for C2 (amended) at `current = 20ms`, `MaxBackoff = 200ms`. -/
theorem c2_backoff_advance_exact_in_range_witness :
    (0 : Int) ≤ 20000000 ∧ (20000000 : Int) < 2 ^ 53 ∧
    (0 : Int) ≤ 200000000 ∧ (200000000 : Int) < 2 ^ 53 ∧
    nextBackoff 20000000 200000000 = min (2 * 20000000) 200000000 :=
  ⟨by norm_num, by norm_num, by norm_num, by norm_num,
    c2_backoff_advance_exact_in_range (by norm_num) (by norm_num)
      (by norm_num) (by norm_num)⟩

/-- C3 counterexample: the (already resolved) configuration `MinBackoff =
MaxBackoff = 2^54 + 2` ns satisfies `0 < MinBackoff ≤ MaxBackoff`, the
invariant holds at initialization, yet one backoff-advance step drops the
backoff to `2^54 < MinBackoff` (float64 rounding of `math.Min`'s
arguments): the invariant `MinBackoff ≤ currentBackoff` is not preserved. -/
theorem c3_invariant_counterexample :
    resolveConfig hugeCfg = hugeCfg ∧
    0 < hugeCfg.MinBackoff ∧ hugeCfg.MinBackoff ≤ hugeCfg.MaxBackoff ∧
    (run hugeCfg neverCancel crashingWorker 0).backoff = hugeCfg.MinBackoff ∧
    (run hugeCfg neverCancel crashingWorker 1).backoff < hugeCfg.MinBackoff := by
  refine ⟨by decide, by decide, by decide, rfl, by decide⟩

/-- C3 (amended): for every configuration with `0 < MinBackoff ≤ MaxBackoff`
and additionally `MaxBackoff < 2^53` ns (the float64-exact range, which
contains all realistic backoff settings), the invariant `MinBackoff ≤
currentBackoff ≤ MaxBackoff` holds at initialization and after every cycle,
for every cancellation trace and every worker trace. -/
theorem c3_backoff_invariant {π : Type} (cfg : Config) (canc : Nat → Bool)
    (ws : Nat → Except π Unit) (h0 : 0 < cfg.MinBackoff)
    (hle : cfg.MinBackoff ≤ cfg.MaxBackoff) (hmax : cfg.MaxBackoff < 2 ^ 53)
    (n : Nat) :
    cfg.MinBackoff ≤ (run cfg canc ws n).backoff ∧
    (run cfg canc ws n).backoff ≤ cfg.MaxBackoff :=
  ⟨(waits_invariant cfg canc ws h0 hle hmax n).1,
   (waits_invariant cfg canc ws h0 hle hmax n).2.1⟩

/-- Witness for C3 (amended) at the test scenario's configuration after 3
cycles of a crashing worker. -/
theorem c3_backoff_invariant_witness :
    0 < smallCfg.MinBackoff ∧ smallCfg.MinBackoff ≤ smallCfg.MaxBackoff ∧
    smallCfg.MaxBackoff < 2 ^ 53 ∧
    (smallCfg.MinBackoff ≤ (run smallCfg neverCancel crashingWorker 3).backoff ∧
     (run smallCfg neverCancel crashingWorker 3).backoff ≤ smallCfg.MaxBackoff) :=
  ⟨by decide, by decide, by norm_num [smallCfg],
    c3_backoff_invariant smallCfg neverCancel crashingWorker (by decide)
      (by decide) (by norm_num [smallCfg]) 3⟩

/-- C4 counterexample: with the (already resolved) configuration
`MinBackoff = 2`, `MaxBackoff = 1` (so `0 < MaxBackoff < MinBackoff`), the
backoff does NOT stay above `MaxBackoff` indefinitely: already on the
second cycle the clamp `min(current*2, max)` has brought it down to
`MaxBackoff` exactly, which does not exceed `MaxBackoff`. -/
theorem c4_above_max_counterexample :
    resolveConfig invertedCfg = invertedCfg ∧
    0 < invertedCfg.MaxBackoff ∧
    invertedCfg.MaxBackoff < invertedCfg.MinBackoff ∧
    (run invertedCfg neverCancel crashingWorker 1).backoff ≤
      invertedCfg.MaxBackoff := by
  refine ⟨by decide, by decide, by decide, by decide⟩

/-- C4 (amended): with `0 < MaxBackoff < MinBackoff` (both in the
float64-exact range `< 2^53` ns) and the signal never firing, only the
first cycle's backoff (the initial `MinBackoff`) exceeds `MaxBackoff`; on
every later cycle the backoff equals exactly `MaxBackoff` — the clamp
brings it down after a single advance rather than leaving it above
`MaxBackoff` indefinitely. -/
theorem c4_clamp_after_first_cycle {π : Type} (cfg : Config)
    (canc : Nat → Bool) (ws : Nat → Except π Unit)
    (h0 : 0 < cfg.MaxBackoff) (hlt : cfg.MaxBackoff < cfg.MinBackoff)
    (hmin : cfg.MinBackoff < 2 ^ 53) (hc : ∀ n, canc n = false) :
    (run cfg canc ws 0).backoff = cfg.MinBackoff ∧
    cfg.MaxBackoff < (run cfg canc ws 0).backoff ∧
    (∀ n, (run cfg canc ws (n + 1)).backoff = cfg.MaxBackoff) := by
  refine ⟨rfl, hlt, ?_⟩
  have hbound : ∀ n, (run cfg canc ws n).backoff = cfg.MinBackoff ∨
      (run cfg canc ws n).backoff = cfg.MaxBackoff := by
    intro n
    induction n with
    | zero => exact Or.inl rfl
    | succ n ih =>
      rw [run_succ, hc n,
        cycle_working cfg (ws n) _ (run_stopped_of_no_cancel cfg canc ws hc n)
          (run_taskDead cfg canc ws n)]
      rcases ih with hb | hb <;> rw [hb] <;> right
      · rw [nextBackoff_eq_min (by omega) hmin (by omega) (by omega)]
        exact min_eq_right (by omega)
      · rw [nextBackoff_eq_min (by omega) (by omega) (by omega) (by omega)]
        exact min_eq_right (by omega)
  intro n
  rw [run_succ, hc n,
    cycle_working cfg (ws n) _ (run_stopped_of_no_cancel cfg canc ws hc n)
      (run_taskDead cfg canc ws n)]
  rcases hbound n with hb | hb <;> rw [hb]
  · rw [nextBackoff_eq_min (by omega) hmin (by omega) (by omega)]
    exact min_eq_right (by omega)
  · rw [nextBackoff_eq_min (by omega) (by omega) (by omega) (by omega)]
    exact min_eq_right (by omega)

/-- Witness for C4 (amended) at `MinBackoff = 2`, `MaxBackoff = 1`. -/
theorem c4_clamp_after_first_cycle_witness :
    (run invertedCfg neverCancel crashingWorker 0).backoff =
      invertedCfg.MinBackoff ∧
    invertedCfg.MaxBackoff < (run invertedCfg neverCancel crashingWorker 0).backoff ∧
    (∀ n, (run invertedCfg neverCancel crashingWorker (n + 1)).backoff =
      invertedCfg.MaxBackoff) :=
  c4_clamp_after_first_cycle invertedCfg neverCancel crashingWorker
    (by decide) (by decide) (by norm_num [invertedCfg]) (fun _ => rfl)

/-- C5 counterexample: with `MinBackoff = MaxBackoff = 2^54 + 2` ns
(`0 < MinBackoff ≤ MaxBackoff`) and a worker that crashes on every
invocation, the first two waits are `2^54 + 2` then `2^54`: the wait
sequence strictly DECREASES, and `MaxBackoff` is not a fixed point of the
advance step (float64 rounding) — contradicting monotone non-decrease and
the clamp-at-`MaxBackoff` fixed point. -/
theorem c5_monotone_counterexample :
    0 < hugeCfg.MinBackoff ∧ hugeCfg.MinBackoff ≤ hugeCfg.MaxBackoff ∧
    (run hugeCfg neverCancel crashingWorker 2).waits =
      [18014398509481986, 18014398509481984] ∧
    (18014398509481984 : Int) < 18014398509481986 ∧
    nextBackoff hugeCfg.MaxBackoff hugeCfg.MaxBackoff < hugeCfg.MaxBackoff := by
  refine ⟨by decide, by decide, by decide, by norm_num, by decide⟩

/-- C5 (amended): for `0 < MinBackoff ≤ MaxBackoff < 2^53` ns (the
float64-exact range) the sequence of performed waits is monotonically
non-decreasing, every wait is at most `MaxBackoff`, and `MaxBackoff` is a
fixed point of the advance step: once the backoff reaches `MaxBackoff` it
stays equal to `MaxBackoff` on every later cycle. -/
theorem c5_backoff_monotone_clamped {π : Type} (cfg : Config)
    (canc : Nat → Bool) (ws : Nat → Except π Unit)
    (h0 : 0 < cfg.MinBackoff) (hle : cfg.MinBackoff ≤ cfg.MaxBackoff)
    (hmax : cfg.MaxBackoff < 2 ^ 53) (n : Nat) :
    List.Chain' (· ≤ ·) (run cfg canc ws n).waits ∧
    (∀ x ∈ (run cfg canc ws n).waits, x ≤ cfg.MaxBackoff) ∧
    ((run cfg canc ws n).backoff = cfg.MaxBackoff →
      (run cfg canc ws (n + 1)).backoff = cfg.MaxBackoff) ∧
    nextBackoff cfg.MaxBackoff cfg.MaxBackoff = cfg.MaxBackoff := by
  have hM0 : (0 : Int) ≤ cfg.MaxBackoff := le_trans (le_of_lt h0) hle
  have hfix : nextBackoff cfg.MaxBackoff cfg.MaxBackoff = cfg.MaxBackoff := by
    rw [nextBackoff_eq_min hM0 hmax hM0 hmax]
    exact min_eq_right (by omega)
  have inv := waits_invariant cfg canc ws h0 hle hmax n
  refine ⟨inv.2.2.1, ?_, ?_, hfix⟩
  · intro x hx
    exact le_trans (inv.2.2.2 x hx) inv.2.1
  · intro hb
    rw [run_succ]
    cases hs : (run cfg canc ws n).stopped with
    | true => rw [cycle_of_stopped _ _ _ _ hs]; exact hb
    | false =>
      cases hcn : canc n with
      | true =>
        rw [cycle_cancelled cfg (ws n) _ hs (run_taskDead cfg canc ws n)]
        exact hb
      | false =>
        rw [cycle_working cfg (ws n) _ hs (run_taskDead cfg canc ws n), hb,
          hfix]

/-- Witness for C5 (amended) at the test scenario's configuration after 5
cycles of a crashing worker. -/
theorem c5_backoff_monotone_clamped_witness :
    List.Chain' (· ≤ ·) (run smallCfg neverCancel crashingWorker 5).waits ∧
    (∀ x ∈ (run smallCfg neverCancel crashingWorker 5).waits,
      x ≤ smallCfg.MaxBackoff) ∧
    ((run smallCfg neverCancel crashingWorker 5).backoff = smallCfg.MaxBackoff →
      (run smallCfg neverCancel crashingWorker 6).backoff = smallCfg.MaxBackoff) ∧
    nextBackoff smallCfg.MaxBackoff smallCfg.MaxBackoff = smallCfg.MaxBackoff :=
  c5_backoff_monotone_clamped smallCfg neverCancel crashingWorker
    (by decide) (by decide) (by norm_num [smallCfg]) 5

/-- C6: the loop's only terminal state is Stopped and it is reached
exclusively by the top-of-cycle cancellation check: if the signal never
fires the loop is never stopped (for every worker trace — no worker outcome
ends the loop, there is no restart-count or circuit-breaker exit); a cycle
can only newly stop when its top-of-cycle poll saw the signal fired; a
fired poll from a live state does stop the loop (logging the stop notice);
and a stopped state is terminal — every further cycle leaves it
untouched. -/
theorem c6_stop_only_by_cancellation {π : Type} (cfg : Config)
    (canc : Nat → Bool) (ws : Nat → Except π Unit) :
    ((∀ n, canc n = false) → ∀ n, (run cfg canc ws n).stopped = false) ∧
    (∀ n, (run cfg canc ws (n + 1)).stopped = true →
      (run cfg canc ws n).stopped = true ∨ canc n = true) ∧
    (∀ n, (run cfg canc ws n).stopped = false → canc n = true →
      (run cfg canc ws (n + 1)).stopped = true ∧
      (run cfg canc ws (n + 1)).log =
        (run cfg canc ws n).log ++ [LogMsg.stoppedMsg]) ∧
    (∀ s : LoopState π, s.stopped = true → ∀ c w, cycle cfg c w s = s) := by
  refine ⟨run_stopped_of_no_cancel cfg canc ws, ?_, ?_, ?_⟩
  · intro n h
    cases hs : (run cfg canc ws n).stopped with
    | true => exact Or.inl rfl
    | false =>
      cases hcn : canc n with
      | true => exact Or.inr rfl
      | false =>
        rw [run_succ, hcn,
          cycle_keeps_running cfg (ws n) (run cfg canc ws n) hs] at h
        exact absurd h (by simp)
  · intro n hs hcn
    rw [run_succ, hcn,
      cycle_cancelled cfg (ws n) _ hs (run_taskDead cfg canc ws n)]
    exact ⟨rfl, rfl⟩
  · intro s h c w
    exact cycle_of_stopped cfg c w s h

/-- Witness for C6: with a never-firing signal and an always-crashing
worker the loop is still live after two cycles. -/
theorem c6_stop_only_by_cancellation_witness :
    (run DefaultConfig neverCancel crashingWorker 2).stopped = false :=
  (c6_stop_only_by_cancellation DefaultConfig neverCancel
    crashingWorker).1 (fun _ => rfl) 2

/-- C7: the backoff wait is not interruptible by cancellation.  A cycle
whose top-of-cycle poll observed the signal unfired performs the full
current-backoff sleep even when the signal fires during that wait (i.e. is
seen fired at the next cycle's top); the stop is observed only at the top
of the following cycle, after which no further sleep occurs — so shutdown
latency is bounded by the last-computed backoff, not zero. -/
theorem c7_wait_uninterruptible {π : Type} (cfg : Config)
    (canc : Nat → Bool) (ws : Nat → Except π Unit) (n : Nat)
    (hs : (run cfg canc ws n).stopped = false)
    (hcn : canc n = false) (hcn1 : canc (n + 1) = true) :
    (run cfg canc ws (n + 1)).waits =
      (run cfg canc ws n).waits ++ [(run cfg canc ws n).backoff] ∧
    (run cfg canc ws (n + 2)).stopped = true ∧
    (run cfg canc ws (n + 2)).waits = (run cfg canc ws (n + 1)).waits := by
  have hd := run_taskDead cfg canc ws n
  have e1 : run cfg canc ws (n + 1) =
      cycle cfg false (ws n) (run cfg canc ws n) := by
    rw [run_succ, hcn]
  have hs1 : (run cfg canc ws (n + 1)).stopped = false := by
    rw [e1]
    exact cycle_keeps_running cfg (ws n) _ hs
  have hd1 := run_taskDead cfg canc ws (n + 1)
  have e2 : run cfg canc ws (n + 2) =
      cycle cfg true (ws (n + 1)) (run cfg canc ws (n + 1)) := by
    rw [show n + 2 = (n + 1) + 1 from rfl, run_succ, hcn1]
  refine ⟨?_, ?_, ?_⟩
  · rw [e1, cycle_working cfg (ws n) _ hs hd]
  · rw [e2, cycle_cancelled cfg (ws (n + 1)) _ hs1 hd1]
  · rw [e2, cycle_cancelled cfg (ws (n + 1)) _ hs1 hd1]

/-- Witness for C7: the signal fires during cycle 0's wait; the full
`MinBackoff` sleep still happens, and the stop is observed at the top of
cycle 1. -/
theorem c7_wait_uninterruptible_witness :
    (run DefaultConfig cancelAfterFirst crashingWorker 1).waits =
      (run DefaultConfig cancelAfterFirst crashingWorker 0).waits ++
        [(run DefaultConfig cancelAfterFirst crashingWorker 0).backoff] ∧
    (run DefaultConfig cancelAfterFirst crashingWorker 2).stopped = true ∧
    (run DefaultConfig cancelAfterFirst crashingWorker 2).waits =
      (run DefaultConfig cancelAfterFirst crashingWorker 1).waits :=
  c7_wait_uninterruptible DefaultConfig cancelAfterFirst crashingWorker 0
    rfl rfl rfl

/-- C8: one invocation logs a crash notice carrying the panic payload iff
the invocation crashed: a panic with payload `p` produces exactly the crash
message for `p`, and a normal return produces no crash message. -/
theorem c8_crash_log_iff_crashed {π : Type} (w : Except π Unit) :
    ((∃ p, LogMsg.crashed p ∈ invokeLogs w) ↔ (∃ p, w = Except.error p)) ∧
    (∀ p, w = Except.error p → invokeLogs w = [LogMsg.crashed p]) ∧
    (∀ u, w = Except.ok u → invokeLogs w = []) := by
  cases w with
  | ok u => simp [invokeLogs_ok]
  | error p => simp [invokeLogs_error]

/-- Witness for C8: a panic with payload `7` logs exactly the crash notice
for `7`. -/
theorem c8_crash_log_iff_crashed_witness :
    invokeLogs (Except.error (7 : Nat)) = [LogMsg.crashed 7] :=
  (c8_crash_log_iff_crashed (Except.error (7 : Nat))).2.1 7 rfl

/-- C9: configuration resolution at the top of `Start` is a pure defaulting
step that rejects nothing: a zero `MinBackoff` becomes 1 second, a zero
`MaxBackoff` becomes 30 seconds, a nil `Logger` becomes the process-wide
default sink, every non-zero/set field is kept unchanged, and a
configuration with `MinBackoff > MaxBackoff` passes through with its
inverted ordering intact — no validation rejects it. -/
theorem c9_config_defaulting (cfg : Config) :
    (cfg.MinBackoff = 0 → (resolveConfig cfg).MinBackoff = second) ∧
    (cfg.MinBackoff ≠ 0 → (resolveConfig cfg).MinBackoff = cfg.MinBackoff) ∧
    (cfg.MaxBackoff = 0 → (resolveConfig cfg).MaxBackoff = 30 * second) ∧
    (cfg.MaxBackoff ≠ 0 → (resolveConfig cfg).MaxBackoff = cfg.MaxBackoff) ∧
    (cfg.Logger = none →
      (resolveConfig cfg).Logger = some LoggerRef.defaultLogger) ∧
    (∀ L, cfg.Logger = some L → (resolveConfig cfg).Logger = some L) ∧
    (cfg.MinBackoff ≠ 0 → cfg.MaxBackoff ≠ 0 →
      cfg.MaxBackoff < cfg.MinBackoff →
      (resolveConfig cfg).MaxBackoff < (resolveConfig cfg).MinBackoff) := by
  refine ⟨?_, ?_, ?_, ?_, ?_, ?_, ?_⟩
  · intro h; simp [resolveConfig, h, second]
  · intro h; simp [resolveConfig, h]
  · intro h; simp [resolveConfig, h, second]
  · intro h; simp [resolveConfig, h]
  · intro h; simp [resolveConfig, h]
  · intro L h; simp [resolveConfig, h]
  · intro h1 h2 h3; simp [resolveConfig, h1, h2]; exact h3

/-- Witness for C9 at the input `{MinBackoff := 0, MaxBackoff := 5,
Logger := nil}`: `MinBackoff` is defaulted to 1s, the non-zero `MaxBackoff`
is kept, the nil logger becomes the default sink. -/
theorem c9_config_defaulting_witness :
    (resolveConfig ⟨0, 5, none⟩).MinBackoff = second ∧
    (resolveConfig ⟨0, 5, none⟩).MaxBackoff = 5 ∧
    (resolveConfig ⟨0, 5, none⟩).Logger = some LoggerRef.defaultLogger :=
  ⟨(c9_config_defaulting ⟨0, 5, none⟩).1 rfl,
   (c9_config_defaulting ⟨0, 5, none⟩).2.2.2.1 (by decide),
   (c9_config_defaulting ⟨0, 5, none⟩).2.2.2.2.1 rfl⟩

/-- C10: defaulting triggers only on the exact zero value, not on all
invalid values: a negative `MinBackoff` passes through `Start`'s check
unchanged, a negative `MaxBackoff` passes through its check unchanged (each
independently — the checks compare against zero only), and a negative
`MinBackoff` reaches the loop as the first cycle's sleep duration, which is
smaller than every positive delay — the between-restart wait is not bounded
below by any positive duration. -/
theorem c10_negative_backoff_passthrough {π : Type} (cfg : Config)
    (canc : Nat → Bool) (ws : Nat → Except π Unit) :
    (cfg.MinBackoff < 0 →
      (resolveConfig cfg).MinBackoff = cfg.MinBackoff) ∧
    (cfg.MaxBackoff < 0 →
      (resolveConfig cfg).MaxBackoff = cfg.MaxBackoff) ∧
    (cfg.MinBackoff < 0 → canc 0 = false →
      (startRun cfg canc ws 1).waits = [cfg.MinBackoff] ∧
      (∀ d : Int, 0 < d → cfg.MinBackoff < d)) := by
  have hmin : cfg.MinBackoff < 0 →
      (resolveConfig cfg).MinBackoff = cfg.MinBackoff := by
    intro hneg
    simp [resolveConfig]
    intro h
    omega
  refine ⟨hmin, ?_, ?_⟩
  · intro hneg
    simp [resolveConfig]
    intro h
    omega
  · intro hneg hc0
    refine ⟨?_, fun d hd => by omega⟩
    rw [startRun, run_succ, hc0, cycle_working _ _ _ rfl rfl, run_zero]
    simp [initState, hmin hneg]

/-- Witness for C10, once at `{MinBackoff := -5ns, MaxBackoff := -7ns}`
(both negative durations kept, first sleep `-5` ns, below every positive
delay) and once at `{MinBackoff := 1s, MaxBackoff := -7ns}` (only
`MaxBackoff` negative, still kept unchanged). -/
theorem c10_negative_backoff_passthrough_witness :
    (resolveConfig negCfg).MinBackoff = negCfg.MinBackoff ∧
    (resolveConfig negCfg).MaxBackoff = negCfg.MaxBackoff ∧
    (resolveConfig mixedCfg).MaxBackoff = mixedCfg.MaxBackoff ∧
    (startRun negCfg neverCancel crashingWorker 1).waits =
      [negCfg.MinBackoff] ∧
    (∀ d : Int, 0 < d → negCfg.MinBackoff < d) :=
  ⟨(c10_negative_backoff_passthrough negCfg neverCancel
      crashingWorker).1 (by decide),
   (c10_negative_backoff_passthrough negCfg neverCancel
      crashingWorker).2.1 (by decide),
   (c10_negative_backoff_passthrough mixedCfg neverCancel
      crashingWorker).2.1 (by decide),
   ((c10_negative_backoff_passthrough negCfg neverCancel
      crashingWorker).2.2 (by decide) rfl).1,
   ((c10_negative_backoff_passthrough negCfg neverCancel
      crashingWorker).2.2 (by decide) rfl).2⟩

end GoSupervisor
